import Mathlib

/-!
Verification of the chart inference-and-rendering core of the PMO/GenAI
repository against its natural-language specification.

The development shallowly embeds the Python functions that the claims are
about:

* `render_chart_html_from_dataset` (src/MCP/CHARTS/mcp-d3-stdio-custom/
  chart_renderer.py) — profiling, chart-type selection, series building and
  the placeholder path;
* `try_merge_plan_timeseries` (src/MCP/MCP-CLIENT/pmo_client_LLM.claude.py)
  — the multi-source merger;
* `_repair_claude_html` (src/MCP/MCP-CLIENT/pmo_client_LLM.claude.20Oct2025..py)
  — the repair/recovery path;
* `strip_cumulative_columns` and its call-site gate
  (src/MCP/MCP-CLIENT/pmo_charts_client_LLM.openai.py).

Modelling conventions, used throughout:
* Input data is modelled by the JSON-like value type `JVal` (the Python data
  reaching these functions is JSON-derived: dict keys are strings, values are
  strings, numbers, booleans, null, lists and dicts).  Python dicts preserve
  insertion order and have distinct keys; they are modelled as ordered
  association lists.
* Python numbers (int and float) are modelled exactly as rationals; the code
  performs only conversions and comparisons with 0, never arithmetic that
  could make binary floating point diverge from ℚ on the values involved.
  `JVal.jint` and `JVal.jfloat` are kept apart because `isinstance` checks
  and truthiness do not distinguish them but `str()` would.
* Python `bool` is a subtype of `int`, so boolean values pass
  `isinstance(v, (int, float))` and convert with `float(True) = 1.0`; the
  embedding mirrors this.
* Exceptions that the source lets escape are modelled with `Except`;
  exceptions that the source catches locally (`try/except` around a value
  coercion) are modelled by `Option` results folded back into the caught
  branch's value.
* Core `String` functions are avoided in favour of explicit `List Char`
  programs so that every definition evaluates inside the kernel.
-/

namespace PMO

/-! ### Character-list string utilities (Python `in`, `lower`, `strip`, `<`) -/

/-- Python whitespace for `str.strip` / `\s`: space, tab, newline, carriage
return, vertical tab, form feed (ASCII; the sources only handle ASCII text). -/
def pyWsChar (c : Char) : Bool :=
  c.isWhitespace || c == Char.ofNat 11 || c == Char.ofNat 12

/-- Test whether `pat` occurs at the head of `hay`. -/
def leadsWith : List Char → List Char → Bool
  | _, [] => true
  | [], _ :: _ => false
  | c :: cs, d :: ds => c == d && leadsWith cs ds

/-- Python `pat in hay` on strings: substring containment. -/
def hasSubList (hay pat : List Char) : Bool :=
  match hay with
  | [] => pat.isEmpty
  | _ :: t => leadsWith hay pat || hasSubList t pat

/-- Python `pat in hay` for strings. -/
def containsStr (hay pat : String) : Bool := hasSubList hay.data pat.data

/-- Python `str.lower()` (ASCII). -/
def lowerStr (s : String) : String := String.mk (s.data.map Char.toLower)

/-- Python `str.strip()`: drop leading and trailing whitespace. -/
def trimStr (s : String) : String :=
  String.mk (((s.data.dropWhile pyWsChar).reverse.dropWhile pyWsChar).reverse)

/-- Lexicographic comparison of character lists by code point, the order
Python uses to compare strings with `<` / `sorted`. -/
def lexLe : List Char → List Char → Bool
  | [], _ => true
  | _ :: _, [] => false
  | a :: as, b :: bs => if a < b then true else if a == b then lexLe as bs else false

/-- Python string `<=`. -/
def pyLe (a b : String) : Bool := lexLe a.data b.data

/-- Decimal value of a digit list. -/
def natListVal (cs : List Char) : ℕ :=
  cs.foldl (fun a c => a * 10 + (c.toNat - 48)) 0

/-- Unsigned decimal literal: `digits`, `digits.`, `digits.digits` or
`.digits`, as accepted by Python `float()`. -/
def parseUnsigned (cs : List Char) : Option ℚ :=
  let intPart := cs.takeWhile Char.isDigit
  let rest := cs.dropWhile Char.isDigit
  match rest with
  | [] => if intPart.isEmpty then none else some (natListVal intPart)
  | '.' :: frac =>
    if intPart.isEmpty && frac.isEmpty then none
    else if frac.all Char.isDigit then
      some ((natListVal intPart : ℚ) + (natListVal frac : ℚ) / (10 : ℚ) ^ frac.length)
    else none
  | _ => none

/-- Python `float(s)` on a string: surrounding whitespace is ignored, then a
signed decimal literal is parsed.  The exotic forms Python also accepts
(exponents, `inf`, `nan`, underscores) are outside every input this
development considers and are modelled as a parse failure. -/
def parseFloatQ (s : String) : Option ℚ :=
  match (s.data.dropWhile pyWsChar).reverse.dropWhile pyWsChar |>.reverse with
  | '-' :: rest => (parseUnsigned rest).map (fun q => -q)
  | '+' :: rest => parseUnsigned rest
  | cs => parseUnsigned cs

/-! ### JSON-like values -/

/-- JSON-like Python values: the shape of every object reaching the embedded
functions.  `jint`/`jfloat` both model Python numbers (exact rationals). -/
inductive JVal where
  | jstr (s : String)
  | jint (n : Int)
  | jfloat (q : ℚ)
  | jbool (b : Bool)
  | jnull
  | jarr (xs : List JVal)
  | jobj (fs : List (String × JVal))

/-- A record: a Python dict as an ordered association list with string keys. -/
abbrev Record := List (String × JVal)

/-- Python `d.get(k)` on a dict with distinct keys: value of the first (only)
binding of `k`. -/
def getVal (r : Record) (k : String) : Option JVal :=
  (r.find? (fun kv => kv.1 == k)).map (·.2)

/-- Python truthiness of a value. -/
def truthy : JVal → Bool
  | .jstr s => !(s == "")
  | .jint n => !(n == 0)
  | .jfloat q => !(q == 0)
  | .jbool b => b
  | .jnull => false
  | .jarr xs => !xs.isEmpty
  | .jobj fs => !fs.isEmpty

/-- Python `isinstance(v, (int, float))`; booleans are ints in Python. -/
def isNumVal : JVal → Bool
  | .jint _ => true
  | .jfloat _ => true
  | .jbool _ => true
  | _ => false

/-- Python `isinstance(v, str)`. -/
def isStrVal : JVal → Bool
  | .jstr _ => true
  | _ => false

/-- Python `v is None`. -/
def isNullVal : JVal → Bool
  | .jnull => true
  | _ => false

/-- Python `float(v)`: `none` models the `TypeError`/`ValueError` the callers
catch.  Booleans convert as 0/1 since `bool <: int`. -/
def pyFloat : JVal → Option ℚ
  | .jint n => some (n : ℚ)
  | .jfloat q => some q
  | .jbool b => some (if b then 1 else 0)
  | .jstr s => parseFloatQ s
  | .jnull => none
  | .jarr _ => none
  | .jobj _ => none

/-- Python `str(v)` for the scalar values the sources format (strings,
ints, bools, None).  The float/list/dict renderings are placeholders: no
code path exercised by the claims formats such a value. -/
def pyStr : JVal → String
  | .jstr s => s
  | .jint n => toString n
  | .jbool b => if b then "True" else "False"
  | .jnull => "None"
  | .jfloat _ => "<float>"
  | .jarr _ => "<list>"
  | .jobj _ => "<dict>"

/-! ### render_chart_html_from_dataset — input normalization

Lines 14–26 of chart_renderer.py.  The comprehension
`[r for r in records if isinstance(r, dict)]` raises `TypeError` when a
truthy non-iterable was bound to `records` (a `result` value that is a
number or `True`); nothing in the function catches it, so it is modelled
with `Except`.  Iterating a string yields characters and iterating a dict
yields its (string) keys, neither of which are dicts, so those cases
normalize to an empty record list. -/

/-- The Python exceptions `render_chart_html_from_dataset` can let escape. -/
inductive PyErr where
  | typeError
deriving DecidableEq

/-- Keep the elements of a Python list that are dicts
(`[r for r in records if isinstance(r, dict)]`). -/
def filterRecs (xs : List JVal) : List Record :=
  xs.filterMap (fun v => match v with | .jobj fs => some fs | _ => none)

/-- Normalization of `data_obj` into `records` (chart_renderer.py lines
14–26): a dict with a `result` key uses `d.get('result') or []`, a list is
used directly, any other dict contributes its first list value, anything
else yields no records; then non-dict entries are dropped. -/
def normalizeRecords (d : JVal) : Except PyErr (List Record) :=
  match d with
  | .jobj fs =>
    match getVal fs "result" with
    | some v =>
      if truthy v then
        match v with
        | .jarr xs => .ok (filterRecs xs)
        | .jstr _ => .ok []
        | .jobj _ => .ok []
        | _ => .error .typeError
      else .ok []
    | none =>
      match fs.find? (fun kv => match kv.2 with | .jarr _ => true | _ => false) with
      | some kv =>
        match kv.2 with
        | .jarr xs => .ok (filterRecs xs)
        | _ => .ok []
      | none => .ok []
  | .jarr xs => .ok (filterRecs xs)
  | _ => .ok []

/-! ### render_chart_html_from_dataset — schema profiling (lines 35–58) -/

/-- Temporal tokens for label-field detection (line 43). -/
def timeTokens : List String := ["month", "date", "week", "period", "time"]

/-- Name-like tokens for name-field detection (line 48). -/
def nameTokens : List String := ["project", "name", "title", "project_name"]

/-- Cumulative-signalling tokens excluded from numeric candidates (line 55). -/
def cumulTokens : List String := ["cumul", "cumulative", "running_total", "total"]

/-- Python `any(x in lk for x in toks)`. -/
def hasAnyToken (toks : List String) (lk : String) : Bool :=
  toks.any (fun t => containsStr lk t)

/-- First key of the sample record whose lowered name contains a temporal
token (lines 41–45). -/
def labelFieldOf (sample : Record) : Option String :=
  (sample.find? (fun kv => hasAnyToken timeTokens (lowerStr kv.1))).map (·.1)

/-- First key whose lowered name contains a name-like token and whose sample
value is a string (lines 46–50). -/
def nameFieldOf (sample : Record) : Option String :=
  (sample.find? (fun kv =>
    hasAnyToken nameTokens (lowerStr kv.1) && isStrVal kv.2)).map (·.1)

/-- Numeric candidates (lines 51–58): sample fields other than the label
field whose name carries no cumulative token and whose value is numeric. -/
def numericFieldsOf (labelField : Option String) (sample : Record) : List String :=
  (sample.filter (fun kv =>
    !(labelField == some kv.1) &&
    !(hasAnyToken cumulTokens (lowerStr kv.1)) &&
    isNumVal kv.2)).map (·.1)

/-! ### render_chart_html_from_dataset — chart-type hint (lines 62–78) -/

/-- Normalize the explicit chart-type hint: returns the normalized type and
the `hint_flag` (lines 62–78).  A falsy hint (absent or empty) defaults to
`line` with no flag. -/
def normHint : Option String → String × Bool
  | none => ("line", false)
  | some s =>
    if s == "" then ("line", false)
    else
      let ct := lowerStr (trimStr s)
      if ct == "donut" || ct == "doughnut" then ("doughnut", true)
      else if ct == "pie" || ct == "bar" || ct == "line" || ct == "doughnut" then (ct, true)
      else ((if ct == "" then "line" else ct), true)

/-! ### render_chart_html_from_dataset — series building -/

/-- One dataset of the built payload: a label and per-record values, where
`none` models JSON `null` entries kept by the line builder.  The palette
colours attached alongside in the source are pure presentation and carry no
information beyond the dataset's position, so they are not modelled. -/
structure Dataset where
  label : String
  data : List (Option ℚ)
deriving DecidableEq

/-- The payload embedded into the generated document:
`{"labels": ..., "datasets": ...}`. -/
structure Payload where
  labels : List String
  datasets : List Dataset
deriving DecidableEq

/-- Mutable state threaded through the heuristic branches: the current
chart type, `labels` and `datasets` (initialized at lines 60–63). -/
structure BState where
  chartT : String
  labels : List String
  datasets : List Dataset
deriving DecidableEq

/-- Keys matching `re.search(r'planned|plan|budget', lk)` (lines 84–87). -/
def plannedKeysOf (sample : Record) : List String :=
  (sample.filter (fun kv =>
    hasAnyToken ["planned", "plan", "budget"] (lowerStr kv.1))).map (·.1)

/-- Keys matching `re.search(r'actual|spent|spent_amount|cost|expense', lk)`
(lines 84–89). -/
def actualKeysOf (sample : Record) : List String :=
  (sample.filter (fun kv =>
    hasAnyToken ["actual", "spent", "spent_amount", "cost", "expense"] (lowerStr kv.1))).map (·.1)

/-- Python `v in (None, '')`: equality with `None` or the empty string
(equality across other types is always false there). -/
def isNoneOrEmptyStr : JVal → Bool
  | .jnull => true
  | .jstr s => s == ""
  | _ => false

/-- Inner loop of `extract_vals` (lines 96–101): the first key of `keys`
present in `r` with a value that is neither `None` nor `''`. -/
def pickVal : List String → Record → Option JVal
  | [], _ => none
  | k :: ks, r =>
    match getVal r k with
    | some v => if isNoneOrEmptyStr v then pickVal ks r else some v
    | none => pickVal ks r

/-- `extract_vals(keys)` (lines 94–106): per record, the first usable value
among `keys` coerced with `float`, defaulting to 0.0 on absence or failure. -/
def extractVals (keys : List String) (records : List Record) : List ℚ :=
  records.map (fun r =>
    match pickVal keys r with
    | some v => (pyFloat v).getD 0
    | none => 0)

/-- The per-field value used by the dead grouped-bar fallback (lines
112–122): `float(r.get(f, 0) if r.get(f) is not None else 0)` with
exceptions caught to 0. -/
def barFallbackVal (f : String) (r : Record) : ℚ :=
  match getVal r f with
  | some v => if isNullVal v then 0 else (pyFloat v).getD 0
  | none => 0

/-- Grouped-bar branch (lines 80–122): fires when there are records, a name
field, at least one planned-like or actual-like key, and no explicit hint.
It sets the chart type to `bar`, labels to the name-field values and one
dataset per matched key group.  The trailing `if not datasets and
numeric_fields` fallback of the source is translated too although the branch
condition makes it unreachable. -/
def barStep (records : List Record) (nameField : Option String)
    (numFields : List String) (hintFlag : Bool) (st : BState) : BState :=
  match records, nameField with
  | sample :: _, some nf =>
    let pks := plannedKeysOf sample
    let aks := actualKeysOf sample
    if (!pks.isEmpty || !aks.isEmpty) && !hintFlag then
      let labels := records.map (fun r => pyStr ((getVal r nf).getD (.jstr "")))
      let ds :=
        (if !pks.isEmpty then [Dataset.mk "Planned" ((extractVals pks records).map some)] else [])
        ++ (if !aks.isEmpty then [Dataset.mk "Actual" ((extractVals aks records).map some)] else [])
      let ds :=
        if ds.isEmpty && !numFields.isEmpty then
          numFields.map (fun f => Dataset.mk f ((records.map (barFallbackVal f)).map some))
        else ds
      { chartT := "bar", labels := labels, datasets := st.datasets ++ ds }
    else st
  | _, _ => st

/-- `_is_time_like` (lines 126–127). -/
def isTimeLikeKey (k : String) : Bool := hasAnyToken timeTokens (lowerStr k)

/-- Category field for the pie heuristic (lines 129–134): the name field,
else the label field, else the first non-temporal string-valued key. -/
def categoryFieldOf (sample : Record) (nameField labelField : Option String) :
    Option String :=
  match nameField with
  | some nf => some nf
  | none =>
    match labelField with
    | some lf => some lf
    | none => (sample.find? (fun kv => isStrVal kv.2 && !(isTimeLikeKey kv.1))).map (·.1)

/-- Test of `re.match(r'^[\d,\.\-\s]+$', v.strip())` (line 144): after
stripping, nonempty and composed of digits, commas, dots, minus signs and
whitespace. -/
def isNumericLikeStr (s : String) : Bool :=
  let t := (trimStr s).data
  !t.isEmpty && t.all (fun c => c.isDigit || c == ',' || c == '.' || c == '-' || pyWsChar c)

/-- Candidate numeric fields for the pie heuristic (lines 136–147): sample
fields other than the category field whose value is numeric or a
numeric-looking string. -/
def pieCandidates (sample : Record) (cf : String) : List String :=
  (sample.filter (fun kv =>
    !(kv.1 == cf) &&
    (isNumVal kv.2 ||
      (match kv.2 with | .jstr s => isNumericLikeStr s | _ => false)))).map (·.1)

/-- `re.sub(r'[^0-9.\-]', '', s)`: keep digits, dots and minus signs. -/
def cleanNumStr (s : String) : String :=
  String.mk (s.data.filter (fun c => c.isDigit || c == '.' || c == '-'))

/-- Pie value coercion (lines 153–161): stringify, strip non-numeric
characters, treat empty as 0 and parse, catching failures to 0. -/
def pieVal (numKey : String) (r : Record) : ℚ :=
  let raw := (getVal r numKey).getD (.jint 0)
  let raw := if isNullVal raw then .jint 0 else raw
  let cleaned := cleanNumStr (pyStr raw)
  if cleaned == "" then 0 else (parseFloatQ cleaned).getD 0

/-- Pie branch (lines 124–164): fires when the chart type is still `line`,
there are records, a category field exists, exactly one candidate numeric
field remains and no explicit hint was given. -/
def pieStep (records : List Record) (nameField labelField : Option String)
    (hintFlag : Bool) (st : BState) : BState :=
  match records with
  | [] => st
  | sample :: _ =>
    if st.chartT == "line" then
      match categoryFieldOf sample nameField labelField with
      | none => st
      | some cf =>
        match pieCandidates sample cf with
        | [numKey] =>
          if !hintFlag then
            { chartT := "pie",
              labels := records.map (fun r => pyStr ((getVal r cf).getD (.jstr ""))),
              datasets := st.datasets ++
                [Dataset.mk numKey ((records.map (pieVal numKey)).map some)] }
          else st
        | _ => st
    else st

/-- Line-branch label (line 170): the stringified label-field value when the
label field exists and is present in the record, else the empty string. -/
def lineLabel (labelField : Option String) (r : Record) : String :=
  match labelField with
  | some lf =>
    match getVal r lf with
    | some v => pyStr v
    | none => ""
  | none => ""

/-- One record's contribution to the numeric-field re-scan comprehension
`[float(rr.get(k, 0) or 0) for rr in records]` (line 177); `none` models the
exception that aborts the whole comprehension. -/
def fallbackVal (k : String) (r : Record) : Option ℚ :=
  let v := (getVal r k).getD (.jint 0)
  if truthy v then pyFloat v else some 0

/-- The numeric-field re-scan of the line branch (lines 171–181): when
profiling produced no numeric candidates, re-admit every non-label sample
field whose values all coerce and are not all zero.  Cumulative-signalling
names are NOT excluded here. -/
def fallbackFields (records : List Record) (labelField : Option String)
    (sample : Record) : List String :=
  (sample.filter (fun kv =>
    !(labelField == some kv.1) &&
    (match records.mapM (fallbackVal kv.1) with
     | some vals => vals.any (fun q => !(q == 0))
     | none => false))).map (·.1)

/-- Per-record dataset entry of the line branch (lines 184–190):
`float(v) if v is not None else None`, exceptions caught to `None`. -/
def dataEntry (f : String) (r : Record) : Option ℚ :=
  (getVal r f).bind pyFloat

/-- Line branch (lines 166–192): when the chart type is still `line` and
there are records, append one label per record and one dataset per numeric
field (re-scanned if profiling found none). -/
def lineStep (records : List Record) (labelField : Option String)
    (numFields : List String) (st : BState) : BState :=
  if st.chartT == "line" then
    match records with
    | [] => st
    | sample :: _ =>
      let nf := if numFields.isEmpty then fallbackFields records labelField sample
                else numFields
      { chartT := st.chartT,
        labels := st.labels ++ records.map (lineLabel labelField),
        datasets := st.datasets ++ nf.map (fun f => Dataset.mk f (records.map (dataEntry f))) }
  else st

/-- Placeholder fallback (lines 194–198): with no datasets, default labels to
`["x"]` and emit a single all-zero dataset named `value`. -/
def finalize (st : BState) : Payload :=
  if st.datasets.isEmpty then
    let labels := if st.labels.isEmpty then ["x"] else st.labels
    ⟨labels, [Dataset.mk "value" (labels.map (fun _ => some 0))]⟩
  else ⟨st.labels, st.datasets⟩

/-- The profiling block guarded by `if records:` (lines 39–58): label field,
name field and numeric candidates from the first record; an empty collection
yields a role-less profile. -/
def profileOf : List Record → Option String × Option String × List String
  | [] => (none, none, [])
  | sample :: _ =>
    (labelFieldOf sample, nameFieldOf sample, numericFieldsOf (labelFieldOf sample) sample)

/-- The heuristic pipeline of `render_chart_html_from_dataset` on normalized
records (lines 35–199): profiling, hint normalization, then the grouped-bar,
pie, line and placeholder branches in source order. -/
def renderCore (records : List Record) (hint : Option String) : Payload × String :=
  let (labelField, nameField, numFields) := profileOf records
  let (ct0, hintFlag) := normHint hint
  let st1 := barStep records nameField numFields hintFlag ⟨ct0, [], []⟩
  let st2 := pieStep records nameField labelField hintFlag st1
  let st3 := lineStep records labelField numFields st2
  (finalize st3, st3.chartT)

/-- The payload embedded in the generated document: either the input's own
`labels`/`datasets` values passed through verbatim (line 30), or a payload
built by the heuristics. -/
inductive RenderedPayload where
  | rawPass (labels datasets : JVal)
  | built (p : Payload)

/-- The pre-built-payload check of line 29: a dict containing both `labels`
and `datasets`. -/
def passPayload : JVal → Option (JVal × JVal)
  | .jobj fs =>
    match getVal fs "labels", getVal fs "datasets" with
    | some l, some d => some (l, d)
    | _, _ => none
  | _ => none

/-- Chart type used by the pass-through branch (line 32):
`chart_type or 'line'`, with no normalization. -/
def passCt : Option String → String
  | none => "line"
  | some s => if s == "" then "line" else s

/-- `render_chart_html_from_dataset`, modelled up to the payload and chart
type handed to `_build_chartjs_html` (which embeds `json.dumps` of the
payload verbatim in the document): normalization (which can raise
`TypeError`), then the pass-through check, then the heuristic pipeline. -/
def renderChart (d : JVal) (hint : Option String) :
    Except PyErr (RenderedPayload × String) :=
  match normalizeRecords d with
  | .error e => .error e
  | .ok records =>
    match passPayload d with
    | some (l, ds) => .ok (.rawPass l ds, passCt hint)
    | none =>
      let (p, t) := renderCore records hint
      .ok (.built p, t)

/-! ### try_merge_plan_timeseries (pmo_client_LLM.claude.py, lines 1013–1094)

The function receives `plan_results`, a dict mapping tool names to result
strings, and `json.loads` each value.  The embedding takes the entries with
their values already parsed (`none` modelling a value both parse attempts
failed on, which the source skips with `parsed = None`).  The caller wraps
the whole call in `try/except` and falls back to `None` (lines 1097–1100),
so an `AttributeError` raised by `r.get` on a non-dict record mid-series is
modelled by `tryMergeE` returning `.error` and `tryMerge` collapsing it to
`none`. -/

namespace Merge

/-- One independently built series (an element of `all_series`). -/
structure MSeries where
  label : String
  labels : List String
  data : List ℚ
deriving DecidableEq

/-- A dataset of the merged payload (colours, again pure presentation, are
not modelled). -/
structure MDataset where
  label : String
  data : List ℚ
deriving DecidableEq

/-- The merged `{labels, datasets}` payload. -/
structure MPayload where
  labels : List String
  datasets : List MDataset
deriving DecidableEq

/-- Record extraction from one parsed plan result (lines 1027–1033): a dict
with a list under `result`, or a bare list; anything else is skipped. -/
def recordsOfParsed : Option JVal → Option (List JVal)
  | some (.jobj fs) =>
    match getVal fs "result" with
    | some (.jarr xs) => some xs
    | _ => none
  | some (.jarr xs) => some xs
  | _ => none

/-- Label-key detection (lines 1038–1045): first key containing a temporal
token, else the first string-valued key.  A falsy (empty-string) key found
by the fallback fails the later `if not label_key` check. -/
def mLabelKeyOf (sample : Record) : Option String :=
  let k :=
    match sample.find? (fun kv =>
        hasAnyToken ["month", "date", "period", "time", "week"] (lowerStr kv.1)) with
    | some kv => some kv.1
    | none => (sample.find? (fun kv => isStrVal kv.2)).map (·.1)
  match k with
  | some s => if s == "" then none else some s
  | none => none

/-- Numeric-key detection (lines 1046–1051): first key, other than the label
key, whose value is numeric or a numeric-looking string; a falsy key fails
the `if not numeric_key` check. -/
def mNumericKeyOf (sample : Record) (labelKey : Option String) : Option String :=
  let k := (sample.find? (fun kv =>
    !(labelKey == some kv.1) &&
    (isNumVal kv.2 ||
      (match kv.2 with | .jstr s => isNumericLikeStr s | _ => false)))).map (·.1)
  match k with
  | some s => if s == "" then none else some s
  | none => none

/-- Series value coercion (lines 1056–1067): missing/None to 0, numeric
strings stripped and parsed, everything run through `float` with exceptions
caught to 0.0. -/
def mValOf (numericKey : String) (r : Record) : ℚ :=
  let v := (getVal r numericKey).getD (.jint 0)
  let v := if isNullVal v then JVal.jint 0 else v
  match v with
  | .jstr s =>
    let c := cleanNumStr s
    if c == "" then 0 else (parseFloatQ c).getD 0
  | _ => (pyFloat v).getD 0

/-- All records of a series must be dicts for the `r.get` comprehensions;
a non-dict raises (modelled as `none`). -/
def asRecords (xs : List JVal) : Option (List Record) :=
  xs.mapM (fun v => match v with | .jobj fs => some fs | _ => none)

/-- Build one entry's series (loop body, lines 1019–1071): `.ok none` models
`continue`, `.error` the uncaught `AttributeError` on a non-dict record. -/
def seriesOfEntry (key : String) (pv : Option JVal) : Except Unit (Option MSeries) :=
  match recordsOfParsed pv with
  | none => .ok none
  | some [] => .ok none
  | some (v0 :: vs) =>
    match v0 with
    | .jobj sample =>
      match mLabelKeyOf sample, mNumericKeyOf sample (mLabelKeyOf sample) with
      | some labelKey, some numericKey =>
        match asRecords (v0 :: vs) with
        | none => .error ()
        | some recs =>
          .ok (some
            { label := key ++ ":" ++ numericKey,
              labels := recs.map (fun r => pyStr ((getVal r labelKey).getD (.jstr ""))),
              data := recs.map (mValOf numericKey) })
      | _, _ => .ok none
    | _ => .ok none

/-- The `all_series` list (lines 1016–1071). -/
def seriesListE (entries : List (String × Option JVal)) :
    Except Unit (List MSeries) :=
  (entries.mapM (fun e => seriesOfEntry e.1 e.2)).map (·.filterMap id)

/-- Strict calendar pattern `^\d{4}-\d{2}$` (line 1077). -/
def isCalendarLabel (l : String) : Bool :=
  match l.data with
  | [a, b, c, d, e, f, g] =>
    a.isDigit && b.isDigit && c.isDigit && d.isDigit && e == '-' && f.isDigit && g.isDigit
  | _ => false

/-- `sort_labels` (lines 1075–1081): both branches call Python `sorted`,
lexicographic by code points — which for labels all matching the strict
calendar pattern `YYYY-MM` coincides with chronological order. -/
def sortLabels (lbls : List String) : List String :=
  if lbls.all isCalendarLabel then List.insertionSort (fun a b => pyLe a b = true) lbls
  else List.insertionSort (fun a b => pyLe a b = true) lbls

/-- Last binding of a label in the `zip`-built dict (later pairs win, as in
a Python dict comprehension). -/
def lookupLast (pairs : List (String × ℚ)) (l : String) : Option ℚ :=
  (pairs.reverse.find? (fun p => p.1 == l)).map (·.2)

/-- Align one series to the unified axis (lines 1086–1092):
`float(mapping.get(L, 0) or 0)`, which for float values is numerically just
the mapped value with 0 for absent labels. -/
def alignSeries (unified : List String) (s : MSeries) : MDataset :=
  { label := s.label,
    data := unified.map (fun l => (lookupLast (s.labels.zip s.data) l).getD 0) }

/-- `try_merge_plan_timeseries` (lines 1013–1094): `.ok none` models the
`return None` on an empty series list, `.error` an escaping exception. -/
def tryMergeE (entries : List (String × Option JVal)) :
    Except Unit (Option MPayload) :=
  match seriesListE entries with
  | .error e => .error e
  | .ok [] => .ok none
  | .ok allSeries =>
    let unified := sortLabels ((allSeries.flatMap (·.labels)).dedup)
    .ok (some ⟨unified, allSeries.map (alignSeries unified)⟩)

/-- The merge as its caller observes it (lines 1096–1100): any exception is
caught and collapsed to `None`. -/
def tryMerge (entries : List (String × Option JVal)) : Option MPayload :=
  match tryMergeE entries with
  | .ok r => r
  | .error _ => none

end Merge

/-! ### strip_cumulative_columns and its gate
(pmo_charts_client_LLM.openai.py, lines 228–263) -/

namespace Client

/-- `is_cumul_field` (lines 239–243); record keys are strings in the
embedding, so the `isinstance(name, str)` guard always passes. -/
def isCumulField (name : String) : Bool :=
  let n := lowerStr name
  containsStr n "cumul" || containsStr n "cumulative" || containsStr n "_cumulative"

/-- `strip_cumulative_columns` (lines 238–244). -/
def stripCumulativeColumns (rows : List Record) : List Record :=
  rows.map (fun row => row.filter (fun kv => !(isCumulField kv.1)))

/-- Python regex word characters (`\w`, ASCII). -/
def isWordChar (c : Char) : Bool := c.isAlphanum || c == '_'

/-- Maximal word-character runs of a string (accumulator holds the current
word reversed). -/
def wordsOfAux : List Char → List Char → List (List Char)
  | [], acc => if acc.isEmpty then [] else [acc.reverse]
  | c :: rest, acc =>
    if isWordChar c then wordsOfAux rest (c :: acc)
    else if acc.isEmpty then wordsOfAux rest []
    else acc.reverse :: wordsOfAux rest []

/-- Maximal word-character runs of a string. -/
def wordsOf (cs : List Char) : List (List Char) := wordsOfAux cs []

/-- `re.search(r"\bcumul(ative)?\b", query, re.IGNORECASE)` (lines 230–234):
the pattern matches exactly when some maximal word of the query is `cumul`
or `cumulative`, case-insensitively. -/
def userWantsCumulative (query : String) : Bool :=
  (wordsOf query.data).any (fun w =>
    let lw := w.map Char.toLower
    lw == "cumul".data || lw == "cumulative".data)

/-- Numeric keys surviving in the first filtered row (line 255). -/
def hasNumericKey (row : Record) : Bool := row.any (fun kv => isNumVal kv.2)

/-- The charting data actually used (lines 246–263): rows unchanged when the
user asked for cumulative values; otherwise the cumulative columns are
stripped, unless stripping would leave no numeric series, in which case the
original rows are kept. -/
def dataForChart (query : String) (rows : List Record) : List Record :=
  if userWantsCumulative query then rows
  else
    let filtered := stripCumulativeColumns rows
    match filtered with
    | f0 :: _ => if hasNumericKey f0 then filtered else rows
    | [] => rows

end Client

/-! ### _repair_claude_html (pmo_client_LLM.claude.20Oct2025..py, lines 167–302)

The repair inspects the saved document's text and either overwrites the file
with a rebuilt page or returns leaving it untouched.  The embedding models
the decision and the payload embedded on a write; presentation pieces
(canvas id, title recovery, the HTML templates themselves) carry no data
derived from the document beyond that payload and are not modelled.
`json.loads` is modelled by a recursive-descent parser for the JSON subset
these documents contain (strings without escape sequences, integers,
decimal fractions, booleans, null, arrays, objects); texts outside the
subset are modelled as a parse failure. -/

namespace Repair

/-- Drop leading whitespace. -/
def skipWsL (cs : List Char) : List Char := cs.dropWhile pyWsChar

/-- Case-insensitive `leadsWith`, for the `re.IGNORECASE` patterns. -/
def leadsWithCI : List Char → List Char → Bool
  | _, [] => true
  | [], _ :: _ => false
  | c :: cs, d :: ds => c.toLower == d.toLower && leadsWithCI cs ds

/-- JSON string body up to the closing quote; escape sequences are outside
the modelled subset. -/
def parseStrBody (cs : List Char) : Option (String × List Char) :=
  let body := cs.takeWhile (fun c => !(c == '"'))
  match cs.dropWhile (fun c => !(c == '"')) with
  | '"' :: rest =>
    if body.any (fun c => c == '\\') then none else some (String.mk body, rest)
  | _ => none

/-- JSON number: integers to `jint`, decimal fractions to `jfloat`. -/
def parseNum (cs : List Char) : Option (JVal × List Char) :=
  let neg := match cs with | '-' :: _ => true | _ => false
  let cs1 := match cs with | '-' :: r => r | _ => cs
  let ip := cs1.takeWhile Char.isDigit
  if ip.isEmpty then none
  else
    match cs1.dropWhile Char.isDigit with
    | '.' :: r2 =>
      let fp := r2.takeWhile Char.isDigit
      if fp.isEmpty then none
      else
        let q : ℚ := (natListVal ip : ℚ) + (natListVal fp : ℚ) / (10 : ℚ) ^ fp.length
        some (.jfloat (if neg then -q else q), r2.dropWhile Char.isDigit)
    | r1 => some (.jint (if neg then -(natListVal ip : Int) else (natListVal ip : Int)), r1)

/-- Comma-separated array items after the opening bracket, one value parsed
by `p` at a time, up to the closing bracket. -/
def parseItemsWith (p : List Char → Option (JVal × List Char)) :
    ℕ → List Char → Option (List JVal × List Char)
  | 0, _ => none
  | f + 1, cs =>
    match p cs with
    | none => none
    | some (v, rest) =>
      match skipWsL rest with
      | ',' :: r2 => (parseItemsWith p f r2).map (fun vr => (v :: vr.1, vr.2))
      | ']' :: r2 => some ([v], r2)
      | _ => none

/-- Comma-separated object fields after the opening brace. -/
def parseFieldsWith (p : List Char → Option (JVal × List Char)) :
    ℕ → List Char → Option (List (String × JVal) × List Char)
  | 0, _ => none
  | f + 1, cs =>
    match skipWsL cs with
    | '"' :: r1 =>
      match parseStrBody r1 with
      | none => none
      | some (k, r2) =>
        match skipWsL r2 with
        | ':' :: r3 =>
          match p r3 with
          | none => none
          | some (v, r4) =>
            match skipWsL r4 with
            | ',' :: r5 => (parseFieldsWith p f r5).map (fun fr => ((k, v) :: fr.1, fr.2))
            | '}' :: r5 => some ([(k, v)], r5)
            | _ => none
        | _ => none
    | _ => none

/-- JSON value parser, fuel-indexed for structural recursion. -/
def parseJ : ℕ → List Char → Option (JVal × List Char)
  | 0, _ => none
  | f + 1, cs =>
    match skipWsL cs with
    | '"' :: rest => (parseStrBody rest).map (fun sr => (.jstr sr.1, sr.2))
    | '[' :: rest =>
      match skipWsL rest with
      | ']' :: r2 => some (.jarr [], r2)
      | _ => (parseItemsWith (parseJ f) (f + 1) rest).map (fun vr => (.jarr vr.1, vr.2))
    | '{' :: rest =>
      match skipWsL rest with
      | '}' :: r2 => some (.jobj [], r2)
      | _ => (parseFieldsWith (parseJ f) (f + 1) rest).map (fun fr => (.jobj fr.1, fr.2))
    | 't' :: rest => if leadsWith rest "rue".data then some (.jbool true, rest.drop 3) else none
    | 'f' :: rest => if leadsWith rest "alse".data then some (.jbool false, rest.drop 4) else none
    | 'n' :: rest => if leadsWith rest "ull".data then some (.jnull, rest.drop 3) else none
    | cs1 => parseNum cs1

/-- `json.loads`: parse one value and require only whitespace to remain. -/
def jsonLoads (s : String) : Option JVal :=
  match parseJ (s.data.length + 1) s.data with
  | some (v, rest) => if (skipWsL rest).isEmpty then some v else none
  | none => none

/-- `re.sub(r',\s*(?=[\]\}])', '', s)` up to whitespace invisible to the
JSON parser: commas directly preceding (modulo whitespace) a closing
bracket or brace are dropped (the regex also deletes the whitespace run,
which `json.loads` ignores anyway). -/
def removeTrailingCommas : List Char → List Char
  | [] => []
  | c :: rest =>
    if c == ',' &&
        (match skipWsL rest with
         | ']' :: _ => true
         | '}' :: _ => true
         | _ => false) then
      removeTrailingCommas rest
    else c :: removeTrailingCommas rest

/-- The two parse attempts of lines 264–270: `json.loads` on the extracted
text, then on the text with trailing commas cleaned. -/
def parsedOrCleaned (s : String) : Option JVal :=
  match jsonLoads s with
  | some v => some v
  | none => jsonLoads (String.mk (removeTrailingCommas s.data))

/-- The early-exit markers of line 172: documents that already embed
chart data or a chart initialization are left alone. -/
def hasChartMarker (txt : String) : Bool :=
  containsStr txt "<script id=\"chart-data\"" || containsStr txt "new Chart(" ||
    containsStr txt "Chart("

/-- Minimal capture for `[\s\S]*?\])\s*;`: content up to the first `]`
followed (modulo whitespace) by `;`, brackets included. -/
def captureToClose : List Char → List Char → Option (List Char)
  | [], _ => none
  | c :: rest, acc =>
    if c == ']' && (match skipWsL rest with | ';' :: _ => true | _ => false) then
      some (acc.reverse ++ [']'])
    else captureToClose rest (c :: acc)

/-- Attempt the strategy-1 pattern
`(?:const|var|let)\s+data\s*=\s*(\[\s*[\s\S]*?\])\s*;` (IGNORECASE, line
174) at the head of `cs`, returning the captured group. -/
def tryDataAssignAt (cs : List Char) : Option String :=
  let afterKw : Option (List Char) :=
    if leadsWithCI cs "const".data then some (cs.drop 5)
    else if leadsWithCI cs "var".data then some (cs.drop 3)
    else if leadsWithCI cs "let".data then some (cs.drop 3)
    else none
  match afterKw with
  | none => none
  | some r1 =>
    if (r1.takeWhile pyWsChar).isEmpty then none
    else
      let r2 := r1.dropWhile pyWsChar
      if leadsWithCI r2 "data".data then
        match skipWsL (r2.drop 4) with
        | '=' :: r4 =>
          match skipWsL r4 with
          | '[' :: r5 => (captureToClose r5 []).map (fun cap => String.mk ('[' :: cap))
          | _ => none
        | _ => none
      else none

/-- `re.search` for the strategy-1 pattern: leftmost match wins. -/
def scanDataAssign (cs : List Char) : Option String :=
  match tryDataAssignAt cs with
  | some r => some r
  | none =>
    match cs with
    | [] => none
    | _ :: t => scanDataAssign t

/-- Minimal capture for `\{[\s\S]*?\}\s*\]`: content up to the first `}`
followed (modulo whitespace) by `]`, everything included. -/
def capToArrClose : List Char → List Char → Option (List Char)
  | [], _ => none
  | c :: rest, acc =>
    if c == '}' then
      let ws := rest.takeWhile pyWsChar
      match rest.dropWhile pyWsChar with
      | ']' :: _ => some (acc.reverse ++ '}' :: ws ++ [']'])
      | _ => capToArrClose rest (c :: acc)
    else capToArrClose rest (c :: acc)

/-- Attempt the fallback pattern `(\[\s*\{[\s\S]*?\}\s*\])` (line 180) at
the head of `cs`. -/
def tryTopArrayAt (cs : List Char) : Option String :=
  match cs with
  | '[' :: r1 =>
    let ws := r1.takeWhile pyWsChar
    match r1.dropWhile pyWsChar with
    | '{' :: r2 => (capToArrClose r2 []).map (fun cap => String.mk ('[' :: ws ++ '{' :: cap))
    | _ => none
  | _ => none

/-- `re.search` for the fallback array pattern: leftmost match wins. -/
def scanTopArray (cs : List Char) : Option String :=
  match tryTopArrayAt cs with
  | some r => some r
  | none =>
    match cs with
    | [] => none
    | _ :: t => scanTopArray t

/-- ASCII code of the apostrophe, one of the two quote characters `["']`
accepts. -/
def isQuoteChar (c : Char) : Bool := c == '"' || c == Char.ofNat 39

/-- Consume `[^>]*>`: everything up to and including the next `>`. -/
def skipToGt : List Char → Option (List Char)
  | [] => none
  | c :: rest => if c == '>' then some rest else skipToGt rest

/-- Scan `[^>]*class=["']CLS["'][^>]*>` inside a tag: find a
`class=<quote>CLS<quote>` occurrence before the closing `>`, then consume
through the `>`.  The greedy `[^>]*` of the source regex differs from this
left-to-right scan only on tags containing `class=` twice, which do not
occur in the documents considered. -/
def matchClassIn (cls : List Char) : List Char → Option (List Char)
  | [] => none
  | c :: rest =>
    if c == '>' then none
    else if leadsWithCI (c :: rest) "class=".data then
      match (c :: rest).drop 6 with
      | q :: r2 =>
        if isQuoteChar q && leadsWithCI r2 cls then
          match r2.drop cls.length with
          | q2 :: r3 => if isQuoteChar q2 then skipToGt r3 else matchClassIn cls rest
          | [] => none
        else matchClassIn cls rest
      | [] => none
    else matchClassIn cls rest

/-- Match `<div[^>]*class=["']CLS["'][^>]*>` at the head of `cs`. -/
def matchOpenDiv (cls : List Char) (cs : List Char) : Option (List Char) :=
  if leadsWithCI cs "<div".data then matchClassIn cls (cs.drop 4) else none

/-- Lazy `[\s\S]*?` before a class-bearing div: the first position where the
div pattern matches. -/
def searchOpenDiv (cls : List Char) : List Char → Option (List Char)
  | [] => none
  | c :: rest =>
    match matchOpenDiv cls (c :: rest) with
    | some r => some r
    | none => searchOpenDiv cls rest

/-- Lazy `(.*?)</div>` without DOTALL: capture up to the first `</div>`,
failing if a newline intervenes. -/
def captureToCloseDiv : List Char → List Char → Option (String × List Char)
  | [], _ => none
  | c :: rest, acc =>
    if leadsWithCI (c :: rest) "</div>".data then
      some (String.mk acc.reverse, (c :: rest).drop 6)
    else if c == '\n' then none
    else captureToCloseDiv rest (c :: acc)

/-- Attempt the full stat-card pattern of line 185 at the head of `cs`:
a stat-card div, then (lazily) a stat-label div with its captured text,
`</div>`, optional whitespace, a stat-value div with its captured text and
`</div>`.  Returns the two captures and the rest of the input. -/
def tryStatAt (cs : List Char) : Option ((String × String) × List Char) :=
  (matchOpenDiv "stat-card".data cs).bind fun r1 =>
  (searchOpenDiv "stat-label".data r1).bind fun r2 =>
  (captureToCloseDiv r2 []).bind fun lp =>
  (matchOpenDiv "stat-value".data (skipWsL lp.2)).bind fun r5 =>
  (captureToCloseDiv r5 []).map fun vp => ((lp.1, vp.1), vp.2)

/-- `re.findall` for the stat-card pattern: leftmost, non-overlapping. -/
def findStatPairsAux : ℕ → List Char → List (String × String)
  | 0, _ => []
  | f + 1, cs =>
    match cs with
    | [] => []
    | _ :: t =>
      match tryStatAt cs with
      | some (p, rest) => p :: findStatPairsAux f rest
      | none => findStatPairsAux f t

/-- All stat-card label/value pairs of the document. -/
def findStatPairs (cs : List Char) : List (String × String) :=
  findStatPairsAux cs.length cs

/-- Consume `[^>]+>` after a `<`: at least one non-`>` character, then
everything up to and including the `>`. -/
def dropTag (cs : List Char) : Option (List Char) :=
  match cs with
  | [] => none
  | c :: _ => if c == '>' then none else skipToGt cs

/-- `re.sub(r"<[^>]+>", "", s)`, fuel-indexed: strip HTML tags from a
captured stat label. -/
def removeTagsAux : ℕ → List Char → List Char
  | 0, cs => cs
  | f + 1, cs =>
    match cs with
    | [] => []
    | c :: rest =>
      if c == '<' then
        match dropTag rest with
        | some r2 => removeTagsAux f r2
        | none => c :: removeTagsAux f rest
      else c :: removeTagsAux f rest

/-- One stat pair cooked as at lines 187–196: label stripped of tags and
whitespace (defaulting to `Value`), value reduced to its numeric characters
and parsed (defaulting to 0). -/
def statOfRaw (p : String × String) : String × ℚ :=
  let lbl := trimStr (String.mk (removeTagsAux p.1.data.length p.1.data))
  let vstr := String.mk (p.2.data.filter (fun c => c.isDigit || c == '.' || c == '-'))
  let v : ℚ := if vstr == "" then 0 else (parseFloatQ vstr).getD 0
  ((if lbl == "" then "Value" else lbl), v)

/-- Outcome of `_repair_claude_html` on a document: no write (already has a
chart, or nothing extractable), a write from strategy 1/fallback-array with
the payload it embeds, a write from the stat-card strategy, or a parse
failure swallowed by the outer `try` (also no write). -/
inductive RepairResult where
  | noWrite
  | parseFail
  | writeData (p : Payload)
  | writeStats (p : Payload)
deriving DecidableEq

/-- `_repair_claude_html` (lines 167–302).  When strategy 1 (or the
fallback top-level-array search) extracts and parses a literal array, the
source initializes `labels = []`, `datasets = []`, computes a `label_key`
from the parsed records without ever using it, and embeds
`{'labels': [], 'datasets': []}` — the written payload is empty no matter
what was parsed. -/
def repairClaudeHtml (txt : String) : RepairResult :=
  if hasChartMarker txt then .noWrite
  else
    match scanDataAssign txt.data with
    | some jsonText =>
      match parsedOrCleaned jsonText with
      | some _ => .writeData ⟨[], []⟩
      | none => .parseFail
    | none =>
      match scanTopArray txt.data with
      | some jsonText =>
        match parsedOrCleaned jsonText with
        | some _ => .writeData ⟨[], []⟩
        | none => .parseFail
      | none =>
        match findStatPairs txt.data with
        | [] => .noWrite
        | pairs =>
          let stats := pairs.map statOfRaw
          .writeStats ⟨stats.map (·.1), [Dataset.mk "Value" (stats.map (fun s => some s.2))]⟩

end Repair

/-- The spec's merge example: one fetched series with labels `[Jan, Feb]`
and data `[10, 20]`, one with labels `[Feb, Mar]` and data `[5, 15]`. -/
def mergeExampleEntries : List (String × Option JVal) := [
  ("s1", some (.jarr [
    .jobj [("month", .jstr "Jan"), ("hours", .jint 10)],
    .jobj [("month", .jstr "Feb"), ("hours", .jint 20)]])),
  ("s2", some (.jarr [
    .jobj [("month", .jstr "Feb"), ("hours", .jint 5)],
    .jobj [("month", .jstr "Mar"), ("hours", .jint 15)]]))]

/-! ## Order properties of the Python string comparison -/

theorem lexLe_trans : ∀ a b c : List Char,
    lexLe a b = true → lexLe b c = true → lexLe a c = true := by
  intro a
  induction a with
  | nil => intro b c _ _; rfl
  | cons x xs ih =>
    intro b c h1 h2
    cases b with
    | nil => simp [lexLe] at h1
    | cons y ys =>
      cases c with
      | nil => simp [lexLe] at h2
      | cons z zs =>
        have h1' : x < y ∨ (x = y ∧ lexLe xs ys = true) := by
          by_cases hxy : x < y
          · exact .inl hxy
          · right
            simp only [lexLe, if_neg hxy] at h1
            by_cases hbeq : x == y
            · exact ⟨eq_of_beq hbeq, by simpa [hbeq] using h1⟩
            · simp [hbeq] at h1
        have h2' : y < z ∨ (y = z ∧ lexLe ys zs = true) := by
          by_cases hyz : y < z
          · exact .inl hyz
          · right
            simp only [lexLe, if_neg hyz] at h2
            by_cases hbeq : y == z
            · exact ⟨eq_of_beq hbeq, by simpa [hbeq] using h2⟩
            · simp [hbeq] at h2
        rcases h1' with h1' | ⟨rfl, h1'⟩
        · rcases h2' with h2' | ⟨rfl, _⟩
          · simp [lexLe, lt_trans h1' h2']
          · simp [lexLe, h1']
        · rcases h2' with h2' | ⟨rfl, h2'⟩
          · simp [lexLe, h2']
          · simp [lexLe, lt_irrefl, ih ys zs h1' h2']

theorem lexLe_total : ∀ a b : List Char, lexLe a b = true ∨ lexLe b a = true := by
  intro a
  induction a with
  | nil => intro b; left; rfl
  | cons x xs ih =>
    intro b
    cases b with
    | nil => right; rfl
    | cons y ys =>
      rcases lt_trichotomy x y with h | rfl | h
      · left; simp [lexLe, h]
      · rcases ih ys with h' | h'
        · left; simp [lexLe, lt_irrefl, h']
        · right; simp [lexLe, lt_irrefl, h']
      · right; simp [lexLe, h]

instance : IsTrans String (fun a b => pyLe a b = true) :=
  ⟨fun a b c => lexLe_trans a.data b.data c.data⟩

instance : IsTotal String (fun a b => pyLe a b = true) :=
  ⟨fun a b => lexLe_total a.data b.data⟩

/-! ## Helper lemmas on the renderer pipeline -/

theorem filterRecs_map_jobj (recs : List Record) : filterRecs (recs.map .jobj) = recs := by
  induction recs with
  | nil => rfl
  | cons r t ih => simpa [filterRecs, List.filterMap_cons] using ih

/-- A plain list of records passes normalization untouched, skips the
pre-built-payload branch and runs the heuristic pipeline. -/
theorem renderChart_records (recs : List Record) (hint : Option String) :
    renderChart (.jarr (recs.map .jobj)) hint =
      .ok (.built (renderCore recs hint).1, (renderCore recs hint).2) := by
  simp [renderChart, normalizeRecords, passPayload, filterRecs_map_jobj]

theorem barStep_nil (nf : Option String) (numF : List String) (hf : Bool) (st : BState) :
    barStep [] nf numF hf st = st := rfl

theorem barStep_noName (recs : List Record) (numF : List String) (hf : Bool) (st : BState) :
    barStep recs none numF hf st = st := by
  cases recs <;> rfl

theorem barStep_hinted (recs : List Record) (nf : Option String) (numF : List String)
    (st : BState) : barStep recs nf numF true st = st := by
  cases recs with
  | nil => rfl
  | cons s t =>
    cases nf with
    | none => rfl
    | some n => simp [barStep]

theorem pieStep_notLine (recs : List Record) (n l : Option String) (hf : Bool) (st : BState)
    (h : (st.chartT == "line") = false) : pieStep recs n l hf st = st := by
  cases recs with
  | nil => rfl
  | cons s t => simp [pieStep, h]

theorem lineStep_notLine (recs : List Record) (l : Option String) (numF : List String)
    (st : BState) (h : (st.chartT == "line") = false) : lineStep recs l numF st = st := by
  simp [lineStep, h]

theorem pieStep_nil (n l : Option String) (hf : Bool) (st : BState) :
    pieStep [] n l hf st = st := rfl

theorem lineStep_nil (l : Option String) (numF : List String) (st : BState) :
    lineStep [] l numF st = st := by
  simp only [lineStep]
  split <;> rfl

/-! ## C7 — empty input and unrecognized shapes -/

/-- C7 (amended): for every input whose normalization succeeds with no
records — the empty collection and every unrecognized shape whose `result`
value (if present and truthy) is iterable — and that is not a pre-built
payload, the function returns the placeholder `labels=["x"]` with one
all-zero dataset; no exception.  (The claim's unrestricted "any input not in
a recognized shape" fails: a truthy non-iterable `result` value raises, see
the counterexample.) -/
theorem claim_C7_empty_placeholder (d : JVal) (hint : Option String)
    (hnorm : normalizeRecords d = .ok [])
    (hpass : passPayload d = none) :
    renderChart d hint =
      .ok (.built ⟨["x"], [⟨"value", [some 0]⟩]⟩, (normHint hint).1) := by
  unfold renderChart
  rw [hnorm, hpass]
  rcases hn : normHint hint with ⟨ct0, hf⟩
  simp only [renderCore, profileOf, hn, barStep_nil, pieStep_nil, lineStep_nil, finalize]
  rfl

/-- C7 witness: the empty record collection renders as the placeholder. -/
theorem claim_C7_witness :
    renderChart (.jarr []) none =
      .ok (.built ⟨["x"], [⟨"value", [some 0]⟩]⟩, "line") :=
  claim_C7_empty_placeholder (.jarr []) none rfl rfl

/-- C7 counterexample: the input `{'result': 5}` is not in a recognized
shape, yet `records = data_obj.get('result') or []` binds 5 and the
comprehension `[r for r in records ...]` raises `TypeError` out of the
function instead of returning the placeholder. -/
theorem claim_C7_counterexample :
    renderChart (.jobj [("result", .jint 5)]) none = .error .typeError := rfl

/-! ## C8 — pre-built payload pass-through -/

/-- C8 (amended): every mapping holding both `labels` and `datasets` whose
normalization does not raise (its `result` entry, if any, is falsy or
iterable) bypasses profiling and selection — structurally, the result is the
`rawPass` branch — and the embedded payload is exactly the input's `labels`
and `datasets` values.  (Unrestricted, the claim fails: such a mapping with
a truthy non-iterable `result` value raises before the pass-through check,
see the counterexample.) -/
theorem claim_C8_roundtrip (fs : List (String × JVal)) (hint : Option String)
    (l d : JVal) (recs : List Record)
    (hl : getVal fs "labels" = some l)
    (hd : getVal fs "datasets" = some d)
    (hnorm : normalizeRecords (.jobj fs) = .ok recs) :
    renderChart (.jobj fs) hint = .ok (.rawPass l d, passCt hint) := by
  unfold renderChart
  rw [hnorm]
  simp [passPayload, hl, hd]

/-- C8 witness: a concrete pre-built payload passes through unchanged. -/
theorem claim_C8_witness :
    renderChart (.jobj [("labels", .jarr [.jstr "a", .jstr "b"]),
        ("datasets", .jarr [.jobj [("label", .jstr "s"), ("data", .jarr [.jint 1, .jint 2])]])])
      (some "pie") =
    .ok (.rawPass (.jarr [.jstr "a", .jstr "b"])
        (.jarr [.jobj [("label", .jstr "s"), ("data", .jarr [.jint 1, .jint 2])]]), "pie") :=
  claim_C8_roundtrip _ _ _ _ [] rfl rfl rfl

/-- C8 counterexample: a mapping containing both `labels` and `datasets`
(and a `result` key bound to 5) raises `TypeError` during normalization —
which the source runs before the pass-through check — so no document with
the input payload is produced. -/
theorem claim_C8_counterexample :
    renderChart (.jobj [("labels", .jarr []), ("datasets", .jarr []), ("result", .jint 5)])
      none = .error .typeError := rfl

/-! ## C10 — explicit bar/pie/donut/doughnut directives on raw records -/

/-- C10: on a raw record list with an explicit directive of `bar`, `pie`,
`donut` or `doughnut`, every heuristic builder branch is guarded off
(`not hint_flag` in the grouped-bar and pie branches, `chart_t == 'line'`
in the pie and line branches), so regardless of the records' content the
output embeds the placeholder payload `labels=["x"]` with a single all-zero
dataset, under the normalized chart type. -/
theorem claim_C10_hint_placeholder (xs : List JVal) (hint : String)
    (hh : hint = "bar" ∨ hint = "pie" ∨ hint = "donut" ∨ hint = "doughnut") :
    renderChart (.jarr xs) (some hint) =
      .ok (.built ⟨["x"], [⟨"value", [some 0]⟩]⟩, (normHint (some hint)).1) := by
  have key : ∀ (ct : String), normHint (some hint) = (ct, true) → (ct == "line") = false →
      renderChart (.jarr xs) (some hint) = .ok (.built ⟨["x"], [⟨"value", [some 0]⟩]⟩, ct) := by
    intro ct hn hline
    have hcore : renderCore (filterRecs xs) (some hint) =
        (⟨["x"], [⟨"value", [some 0]⟩]⟩, ct) := by
      rcases hp : profileOf (filterRecs xs) with ⟨lf, nf, nF⟩
      have h1 : barStep (filterRecs xs) nf nF true ⟨ct, [], []⟩ = ⟨ct, [], []⟩ :=
        barStep_hinted _ _ _ _
      have h2 : pieStep (filterRecs xs) nf lf true ⟨ct, [], []⟩ = ⟨ct, [], []⟩ :=
        pieStep_notLine _ _ _ _ _ hline
      have h3 : lineStep (filterRecs xs) lf nF ⟨ct, [], []⟩ = ⟨ct, [], []⟩ :=
        lineStep_notLine _ _ _ _ hline
      simp only [renderCore, hp, hn, h1, h2, h3, finalize]
      rfl
    simp [renderChart, normalizeRecords, passPayload, hcore, hn]
  rcases hh with rfl | rfl | rfl | rfl
  · exact key "bar" rfl rfl
  · exact key "pie" rfl rfl
  · exact key "doughnut" rfl rfl
  · exact key "doughnut" rfl rfl

/-- C10 witness: planned/actual records that would heuristically become a
grouped bar chart degrade to the placeholder under an explicit `bar` hint. -/
theorem claim_C10_witness :
    renderChart (.jarr [.jobj [("project", .jstr "A"), ("planned", .jint 10),
        ("actual", .jint 8)]]) (some "bar") =
      .ok (.built ⟨["x"], [⟨"value", [some 0]⟩]⟩, "bar") :=
  claim_C10_hint_placeholder _ "bar" (.inl rfl)

/-! ## More helper lemmas: branch characterizations -/

theorem barStep_noKeys (sample : Record) (rest : List Record) (n : String)
    (numF : List String) (hf : Bool) (st : BState)
    (hp : plannedKeysOf sample = []) (ha : actualKeysOf sample = []) :
    barStep (sample :: rest) (some n) numF hf st = st := by
  simp [barStep, hp, ha]

theorem barStep_fired (sample : Record) (rest : List Record) (n : String)
    (numF : List String) (st : BState)
    (hkeys : plannedKeysOf sample ≠ [] ∨ actualKeysOf sample ≠ []) :
    barStep (sample :: rest) (some n) numF false st =
      ⟨"bar",
       (sample :: rest).map (fun r => pyStr ((getVal r n).getD (.jstr ""))),
       st.datasets ++
         ((if !(plannedKeysOf sample).isEmpty then
             [⟨"Planned", (extractVals (plannedKeysOf sample) (sample :: rest)).map some⟩]
           else [])
          ++ (if !(actualKeysOf sample).isEmpty then
             [⟨"Actual", (extractVals (actualKeysOf sample) (sample :: rest)).map some⟩]
           else []))⟩ := by
  cases hp : (plannedKeysOf sample).isEmpty with
  | false =>
    cases hpk : plannedKeysOf sample with
    | nil => rw [hpk] at hp; simp at hp
    | cons k ks => simp [barStep, hpk]
  | true =>
    cases ha : (actualKeysOf sample).isEmpty with
    | false =>
      cases hak : actualKeysOf sample with
      | nil => rw [hak] at ha; simp at ha
      | cons k ks =>
        have hpl : plannedKeysOf sample = [] := List.isEmpty_iff.mp hp
        simp [barStep, hpl, hak]
    | true =>
      have hpl : plannedKeysOf sample = [] := List.isEmpty_iff.mp hp
      have hal : actualKeysOf sample = [] := List.isEmpty_iff.mp ha
      rcases hkeys with h | h
      · exact absurd hpl h
      · exact absurd hal h

theorem pieStep_chartT (recs : List Record) (n l : Option String) (hf : Bool) (st : BState) :
    (pieStep recs n l hf st).chartT = st.chartT ∨ (pieStep recs n l hf st).chartT = "pie" := by
  cases recs with
  | nil => exact .inl rfl
  | cons s t =>
    simp only [pieStep]
    split
    · split
      · exact .inl rfl
      · split
        · split
          · exact .inr rfl
          · exact .inl rfl
        · exact .inl rfl
    · exact .inl rfl

theorem lineStep_chartT (recs : List Record) (l : Option String) (numF : List String)
    (st : BState) : (lineStep recs l numF st).chartT = st.chartT := by
  simp only [lineStep]
  split
  · cases recs with
    | nil => rfl
    | cons s t => rfl
  · rfl

/-! ## C3 — grouped-bar selection -/

/-- C3 (amended): with no explicit directive, the heuristic selects `bar`
exactly when the records are non-empty with a name-like label field and AT
LEAST ONE of a planned-like or an actual-like field — not necessarily both —
and when it fires it produces one dataset per matched group (`Planned` when
a planned-like key matched, `Actual` when an actual-like key matched),
labelled by the name field. -/
theorem claim_C3_bar_selection (recs : List Record) :
    (renderChart (.jarr (recs.map .jobj)) none =
        .ok (.built (renderCore recs none).1, (renderCore recs none).2)) ∧
    ((renderCore recs none).2 = "bar" ↔
      ∃ sample rest, recs = sample :: rest ∧ (nameFieldOf sample).isSome ∧
        (plannedKeysOf sample ≠ [] ∨ actualKeysOf sample ≠ [])) ∧
    (∀ sample rest n, recs = sample :: rest → nameFieldOf sample = some n →
      plannedKeysOf sample ≠ [] ∨ actualKeysOf sample ≠ [] →
      (renderCore recs none).1 =
        ⟨recs.map (fun r => pyStr ((getVal r n).getD (.jstr ""))),
         (if !(plannedKeysOf sample).isEmpty then
             [⟨"Planned", (extractVals (plannedKeysOf sample) recs).map some⟩]
           else [])
          ++ (if !(actualKeysOf sample).isEmpty then
             [⟨"Actual", (extractVals (actualKeysOf sample) recs).map some⟩]
           else [])⟩) := by
  refine ⟨renderChart_records recs none, ?_, ?_⟩
  · constructor
    · intro hbar
      cases recs with
      | nil =>
        exfalso
        simp only [renderCore, profileOf, normHint, barStep_nil, pieStep_nil,
          lineStep_nil] at hbar
        exact absurd hbar (by decide)
      | cons sample rest =>
        refine ⟨sample, rest, rfl, ?_⟩
        by_contra hcon
        push_neg at hcon
        have hnofire : barStep (sample :: rest) (nameFieldOf sample)
            (numericFieldsOf (labelFieldOf sample) sample) false ⟨"line", [], []⟩ =
            ⟨"line", [], []⟩ := by
          cases hn : nameFieldOf sample with
          | none => exact barStep_noName _ _ _ _
          | some n =>
            rcases hcon (by rw [hn]; rfl) with ⟨hp, ha⟩
            exact barStep_noKeys sample rest n _ _ _ hp ha
        simp only [renderCore, profileOf, normHint, hnofire] at hbar
        rcases pieStep_chartT (sample :: rest) (nameFieldOf sample) (labelFieldOf sample)
            false ⟨"line", [], []⟩ with hpie | hpie
        · rw [lineStep_chartT, hpie] at hbar
          exact absurd hbar (by decide)
        · rw [lineStep_chartT, hpie] at hbar
          exact absurd hbar (by decide)
    · rintro ⟨sample, rest, rfl, hname, hkeys⟩
      rcases Option.isSome_iff_exists.mp hname with ⟨n, hn⟩
      have hfired := barStep_fired sample rest n
        (numericFieldsOf (labelFieldOf sample) sample) ⟨"line", [], []⟩ hkeys
      have hnl : (("bar" : String) == "line") = false := by decide
      simp only [renderCore, profileOf, normHint, hn, hfired]
      rw [pieStep_notLine _ _ _ _ _ hnl, lineStep_notLine _ _ _ _ hnl]
  · rintro sample rest n rfl hn hkeys
    have hfired := barStep_fired sample rest n
      (numericFieldsOf (labelFieldOf sample) sample) ⟨"line", [], []⟩ hkeys
    have hnl : (("bar" : String) == "line") = false := by decide
    have hds : ((if !(plannedKeysOf sample).isEmpty then
          [Dataset.mk "Planned" ((extractVals (plannedKeysOf sample) (sample :: rest)).map some)]
        else [])
        ++ (if !(actualKeysOf sample).isEmpty then
          [Dataset.mk "Actual" ((extractVals (actualKeysOf sample) (sample :: rest)).map some)]
        else [])) ≠ [] := by
      rcases hkeys with h | h
      · have : (plannedKeysOf sample).isEmpty = false := by
          cases hpk : plannedKeysOf sample with
          | nil => exact absurd hpk h
          | cons k ks => rfl
        simp [this]
      · have : (actualKeysOf sample).isEmpty = false := by
          cases hak : actualKeysOf sample with
          | nil => exact absurd hak h
          | cons k ks => rfl
        simp [this]
    simp only [renderCore, profileOf, normHint, hn, hfired]
    rw [pieStep_notLine _ _ _ _ _ hnl, lineStep_notLine _ _ _ _ hnl]
    simp only [finalize, List.nil_append]
    rw [if_neg (by simpa [List.isEmpty_iff] using hds)]

/-- C3 counterexample: a record set with a name field and a planned-like
field but NO actual-like field still selects the grouped bar chart, with one
`Planned` dataset — refuting the claim that the rule requires both groups
and does not select bar when only one is present. -/
theorem claim_C3_counterexample :
    renderChart (.jarr [.jobj [("project", .jstr "A"), ("planned", .jint 10)]]) none =
      .ok (.built ⟨["A"], [⟨"Planned", [some 10]⟩]⟩, "bar") := rfl

/-- C3 witness: the spec's own example fires the amended rule and yields
`Planned=[10,20]`, `Actual=[8,15]`, labels `[A,B]`. -/
theorem claim_C3_witness :
    (renderCore [[("project", .jstr "A"), ("planned", .jint 10), ("actual", .jint 8)],
        [("project", .jstr "B"), ("planned", .jint 20), ("actual", .jint 15)]] none).2
      = "bar" ∧
    (renderCore [[("project", .jstr "A"), ("planned", .jint 10), ("actual", .jint 8)],
        [("project", .jstr "B"), ("planned", .jint 20), ("actual", .jint 15)]] none).1
      = ⟨["A", "B"], [⟨"Planned", [some 10, some 20]⟩, ⟨"Actual", [some 8, some 15]⟩]⟩ := by
  constructor
  · exact (claim_C3_bar_selection _).2.1.mpr
      ⟨_, _, rfl, rfl, .inl (by decide)⟩
  · exact ((claim_C3_bar_selection _).2.2
      [("project", .jstr "A"), ("planned", .jint 10), ("actual", .jint 8)]
      [[("project", .jstr "B"), ("planned", .jint 20), ("actual", .jint 15)]]
      "project" rfl rfl (.inl (by decide))).trans rfl

/-! ## C1 — dataset/label length invariant -/

theorem barStep_init_cases (recs : List Record) (nf : Option String) (numF : List String)
    (hf : Bool) (ct : String) :
    barStep recs nf numF hf ⟨ct, [], []⟩ = ⟨ct, [], []⟩ ∨
    ((barStep recs nf numF hf ⟨ct, [], []⟩).chartT = "bar" ∧
     (barStep recs nf numF hf ⟨ct, [], []⟩).labels.length = recs.length ∧
     ∀ d ∈ (barStep recs nf numF hf ⟨ct, [], []⟩).datasets, d.data.length = recs.length) := by
  cases recs with
  | nil => exact .inl rfl
  | cons sample rest =>
    cases nf with
    | none => exact .inl (barStep_noName _ _ _ _)
    | some n =>
      by_cases hcond :
          ((!(plannedKeysOf sample).isEmpty || !(actualKeysOf sample).isEmpty) && !hf) = true
      · right
        have hhf : hf = false := by
          cases hf with
          | false => rfl
          | true => simp at hcond
        cases hpk : (plannedKeysOf sample).isEmpty with
        | false =>
          cases hak : (actualKeysOf sample).isEmpty with
          | false =>
            refine ⟨by simp [barStep, hcond, hhf, hpk, hak], by simp [barStep, hcond, hhf, hpk, hak], ?_⟩
            intro d hd
            simp [barStep, hcond, hhf, hpk, hak] at hd
            rcases hd with rfl | rfl <;> simp [extractVals]
          | true =>
            refine ⟨by simp [barStep, hcond, hhf, hpk, hak], by simp [barStep, hcond, hhf, hpk, hak], ?_⟩
            intro d hd
            simp [barStep, hcond, hhf, hpk, hak] at hd
            rw [hd]
            simp [extractVals]
        | true =>
          cases hak : (actualKeysOf sample).isEmpty with
          | false =>
            refine ⟨by simp [barStep, hcond, hhf, hpk, hak], by simp [barStep, hcond, hhf, hpk, hak], ?_⟩
            intro d hd
            simp [barStep, hcond, hhf, hpk, hak] at hd
            rw [hd]
            simp [extractVals]
          | true => simp [hpk, hak] at hcond
      · left
        simp only [barStep]
        rw [if_neg hcond]

theorem pieStep_init_cases (recs : List Record) (n l : Option String) (hf : Bool)
    (ct : String) :
    pieStep recs n l hf ⟨ct, [], []⟩ = ⟨ct, [], []⟩ ∨
    ((pieStep recs n l hf ⟨ct, [], []⟩).chartT = "pie" ∧
     (pieStep recs n l hf ⟨ct, [], []⟩).labels.length = recs.length ∧
     ∀ d ∈ (pieStep recs n l hf ⟨ct, [], []⟩).datasets, d.data.length = recs.length) := by
  cases recs with
  | nil => exact .inl rfl
  | cons s t =>
    simp only [pieStep]
    split
    · split
      · exact .inl rfl
      · split
        · split
          · right
            refine ⟨rfl, by simp, ?_⟩
            intro d hd
            simp only [List.nil_append, List.mem_singleton] at hd
            subst hd
            simp
          · exact .inl rfl
        · exact .inl rfl
    · exact .inl rfl

theorem lineStep_init_cases (recs : List Record) (l : Option String) (numF : List String)
    (ct : String) :
    lineStep recs l numF ⟨ct, [], []⟩ = ⟨ct, [], []⟩ ∨
    ((lineStep recs l numF ⟨ct, [], []⟩).chartT = ct ∧
     (lineStep recs l numF ⟨ct, [], []⟩).labels.length = recs.length ∧
     ∀ d ∈ (lineStep recs l numF ⟨ct, [], []⟩).datasets, d.data.length = recs.length) := by
  simp only [lineStep]
  split
  · cases recs with
    | nil => exact .inl rfl
    | cons s t =>
      right
      refine ⟨rfl, by simp, ?_⟩
      intro d hd
      simp only [List.nil_append] at hd
      rcases List.mem_map.mp hd with ⟨f, _, rfl⟩
      simp
  · exact .inl rfl

theorem finalize_aligned (st : BState)
    (hal : ∀ d ∈ st.datasets, d.data.length = st.labels.length) :
    ∀ d ∈ (finalize st).datasets, d.data.length = (finalize st).labels.length := by
  cases hde : st.datasets.isEmpty with
  | true =>
    intro d hd
    simp only [finalize, hde, if_true] at hd ⊢
    rw [List.mem_singleton.mp hd]
    simp
  | false =>
    intro d hd
    simp only [finalize, hde] at hd ⊢
    exact hal d hd

theorem renderCore_aligned (recs : List Record) (hint : Option String) :
    ∀ ds ∈ (renderCore recs hint).1.datasets,
      ds.data.length = (renderCore recs hint).1.labels.length := by
  rcases hp : profileOf recs with ⟨lf, prof2⟩
  rcases prof2 with ⟨nf, nF⟩
  rcases hn : normHint hint with ⟨ct0, hf⟩
  simp only [renderCore, hp, hn]
  rcases barStep_init_cases recs nf nF hf ct0 with hb | ⟨hbt, hbl, hbd⟩
  · rw [hb]
    rcases pieStep_init_cases recs nf lf hf ct0 with hpie | ⟨hpt, hpl, hpd⟩
    · rw [hpie]
      rcases lineStep_init_cases recs lf nF ct0 with hline | ⟨_, hll, hld⟩
      · rw [hline]
        exact finalize_aligned _ (by simp)
      · exact finalize_aligned _ (fun d hd => (hld d hd).trans hll.symm)
    · have hne : ((pieStep recs nf lf hf ⟨ct0, [], []⟩).chartT == "line") = false := by
        rw [hpt]; rfl
      rw [lineStep_notLine _ _ _ _ hne]
      exact finalize_aligned _ (fun d hd => (hpd d hd).trans hpl.symm)
  · have hne : ((barStep recs nf nF hf ⟨ct0, [], []⟩).chartT == "line") = false := by
      rw [hbt]; rfl
    rw [pieStep_notLine _ _ _ _ _ hne, lineStep_notLine _ _ _ _ hne]
    exact finalize_aligned _ (fun d hd => (hbd d hd).trans hbl.symm)

/-- C1: whenever `render_chart_html_from_dataset` builds the payload itself
— through the grouped-bar, pie, line or placeholder branch — every dataset
satisfies `len(data) == len(labels)`. -/
theorem claim_C1_dataset_label_lengths (d : JVal) (hint : Option String)
    (p : Payload) (t : String)
    (h : renderChart d hint = .ok (.built p, t)) :
    ∀ ds ∈ p.datasets, ds.data.length = p.labels.length := by
  unfold renderChart at h
  rcases hnorm : normalizeRecords d with e | records <;> rw [hnorm] at h
  · simp at h
  · rcases hpass : passPayload d with _ | pair <;> rw [hpass] at h
    · dsimp only at h
      rcases hcore : renderCore records hint with ⟨p', t'⟩
      rw [hcore] at h
      simp only [Except.ok.injEq, Prod.mk.injEq, RenderedPayload.built.injEq] at h
      rcases h with ⟨rfl, rfl⟩
      have hal := renderCore_aligned records hint
      rw [hcore] at hal
      exact hal
    · rcases pair with ⟨l, dv⟩
      simp at h

/-- C1 witness: instantiated on a concrete record collection with a numeric
candidate (the line branch) the invariant evaluates as stated. -/
theorem claim_C1_witness :
    (Dataset.mk "hours" [some 10, some 20]).data.length =
      (["Jan", "Feb"] : List String).length := by
  have h : renderChart
      (.jarr [.jobj [("month", .jstr "Jan"), ("hours", .jint 10), ("cost", .jint 3)],
              .jobj [("month", .jstr "Feb"), ("hours", .jint 20), ("cost", .jint 4)]]) none =
      .ok (.built ⟨["Jan", "Feb"],
        [⟨"hours", [some 10, some 20]⟩, ⟨"cost", [some 3, some 4]⟩]⟩, "line") := rfl
  exact claim_C1_dataset_label_lengths _ none _ "line" h
    ⟨"hours", [some 10, some 20]⟩ (by simp)

/-! ## C5 — cumulative-field exclusion -/

/-- C5: profiling records of shape `{month, hours, hours_cumulative}` yields
numeric candidates `["hours"]` only — the cumulative-named field is excluded
— and on the client side the cumulative columns are stripped from the data
sent for charting exactly when the originating request did not ask for
cumulative values (for any word-free-of-cumulative query `q` and any
cumulative-requesting query `q'`). -/
theorem claim_C5_cumulative_exclusion (m : String) (h c : Int) (q q' : String)
    (hq : Client.userWantsCumulative q = false)
    (hq' : Client.userWantsCumulative q' = true) :
    numericFieldsOf
        (labelFieldOf [("month", .jstr m), ("hours", .jint h), ("hours_cumulative", .jint c)])
        [("month", .jstr m), ("hours", .jint h), ("hours_cumulative", .jint c)]
      = ["hours"] ∧
    Client.dataForChart q
        [[("month", .jstr m), ("hours", .jint h), ("hours_cumulative", .jint c)]]
      = [[("month", .jstr m), ("hours", .jint h)]] ∧
    Client.dataForChart q'
        [[("month", .jstr m), ("hours", .jint h), ("hours_cumulative", .jint c)]]
      = [[("month", .jstr m), ("hours", .jint h), ("hours_cumulative", .jint c)]] := by
  refine ⟨rfl, ?_, ?_⟩
  · simp only [Client.dataForChart, hq]
    rfl
  · simp only [Client.dataForChart, hq']
    rfl

/-- C5 witness: the concrete record `{month: Jan, hours: 10,
hours_cumulative: 55}` under a non-cumulative and a cumulative query. -/
theorem claim_C5_witness :
    numericFieldsOf
        (labelFieldOf [("month", .jstr "Jan"), ("hours", .jint 10), ("hours_cumulative", .jint 55)])
        [("month", .jstr "Jan"), ("hours", .jint 10), ("hours_cumulative", .jint 55)]
      = ["hours"] ∧
    Client.dataForChart "plot monthly hours"
        [[("month", .jstr "Jan"), ("hours", .jint 10), ("hours_cumulative", .jint 55)]]
      = [[("month", .jstr "Jan"), ("hours", .jint 10)]] ∧
    Client.dataForChart "plot cumulative hours"
        [[("month", .jstr "Jan"), ("hours", .jint 10), ("hours_cumulative", .jint 55)]]
      = [[("month", .jstr "Jan"), ("hours", .jint 10), ("hours_cumulative", .jint 55)]] :=
  claim_C5_cumulative_exclusion "Jan" 10 55 "plot monthly hours" "plot cumulative hours" rfl rfl

/-! ## C9 — repair gives up without writing -/

/-- C9: when the document has none of the chart markers, no
`const/var/let data = [...]` assignment, no top-level record-array literal
and no stat-card fragments, `_repair_claude_html` returns without writing:
the document's content is left completely unchanged, and — since nothing is
written — no values are fabricated; the unrepaired document itself remains
on disk for inspection. -/
theorem claim_C9_unrecoverable_no_write (txt : String)
    (h1 : Repair.hasChartMarker txt = false)
    (h2 : Repair.scanDataAssign txt.data = none)
    (h3 : Repair.scanTopArray txt.data = none)
    (h4 : Repair.findStatPairs txt.data = []) :
    Repair.repairClaudeHtml txt = .noWrite := by
  simp [Repair.repairClaudeHtml, h1, h2, h3, h4]

/-- C9 witness: a plain text document with none of the extractable
patterns. -/
theorem claim_C9_witness :
    Repair.repairClaudeHtml "upstream generation failed" = .noWrite :=
  claim_C9_unrecoverable_no_write "upstream generation failed" rfl rfl rfl rfl

/-! ## C4 — repair strategy 1 writes an empty payload (code bug) -/

/-- C4: for a document whose only chart content is a literal record array
bound with `const data = [...]`, the repair does parse the array but then
embeds `{'labels': [], 'datasets': []}` — the `labels`/`datasets` the spec
says are derived from the parsed records are never populated (the computed
`label_key` is dead code), so the rewritten document's payload is empty
rather than non-empty. -/
theorem claim_C4_strategy1_writes_empty_payload :
    Repair.repairClaudeHtml
      "<body><script>const data = [\x7b\"month\": \"Jan\", \"hours\": 10\x7d];</script></body>"
      = .writeData ⟨[], []⟩ := rfl

/-! ## C2 — multi-source merge -/

/-- Both branches of `sort_labels` call Python `sorted`. -/
theorem sortLabels_eq (l : List String) :
    Merge.sortLabels l = List.insertionSort (fun a b => pyLe a b = true) l := by
  unfold Merge.sortLabels
  split <;> rfl

/-- C2 counterexample: on the spec's example the merged axis is
`[Feb, Jan, Mar]` — month names are sorted lexicographically, not
chronologically — with the datasets aligned as `[20, 10, 0]` and
`[5, 0, 15]`; the claimed `labels=[Jan, Feb, Mar]` (with `[10, 20, 0]` /
`[0, 5, 15]`) is not what the code produces. -/
theorem claim_C2_counterexample :
    Merge.tryMerge mergeExampleEntries = some ⟨["Feb", "Jan", "Mar"],
      [⟨"s1:hours", [20, 10, 0]⟩, ⟨"s2:hours", [5, 0, 15]⟩]⟩ ∧
    (["Feb", "Jan", "Mar"] : List String) ≠ ["Jan", "Feb", "Mar"] :=
  ⟨rfl, by decide⟩

/-- C2 (amended): the merged label axis is the union of the input label
sets sorted by Python string order — lexicographic by code points in every
case, which coincides with chronological order exactly when all labels
match the strict `YYYY-MM` calendar pattern — and each input series is
re-expressed on that axis with absent positions filled with 0
(`alignSeries`); on the spec's example this yields `labels=[Feb, Jan, Mar]`
with datasets `[20, 10, 0]` and `[5, 0, 15]`. -/
theorem claim_C2_merge_union_sorted :
    (Merge.tryMerge mergeExampleEntries = some ⟨["Feb", "Jan", "Mar"],
       [⟨"s1:hours", [20, 10, 0]⟩, ⟨"s2:hours", [5, 0, 15]⟩]⟩) ∧
    (∀ entries ss p, Merge.seriesListE entries = .ok ss →
      Merge.tryMerge entries = some p →
      List.Sorted (fun a b => pyLe a b = true) p.labels ∧
      (∀ l, l ∈ p.labels ↔ ∃ s ∈ ss, l ∈ s.labels) ∧
      p.datasets = ss.map (Merge.alignSeries p.labels)) := by
  refine ⟨rfl, ?_⟩
  intro entries ss p hs hp
  unfold Merge.tryMerge Merge.tryMergeE at hp
  rw [hs] at hp
  cases ss with
  | nil => simp at hp
  | cons s rest =>
    dsimp only at hp
    rcases Option.some.inj hp with rfl
    rw [sortLabels_eq]
    refine ⟨List.sorted_insertionSort _ _, ?_, rfl⟩
    intro l
    rw [List.mem_insertionSort, List.mem_dedup, List.mem_flatMap]

/-- C2 witness: the amended theorem applied to the example yields a merged
payload whose axis is sorted in Python string order and is exactly the
union of the two input label sets. -/
theorem claim_C2_witness :
    List.Sorted (fun a b => pyLe a b = true) (["Feb", "Jan", "Mar"] : List String) ∧
    ("Mar" : String) ∈ (["Feb", "Jan", "Mar"] : List String) := by
  have hs : Merge.seriesListE mergeExampleEntries = .ok
      [⟨"s1:hours", ["Jan", "Feb"], [10, 20]⟩, ⟨"s2:hours", ["Feb", "Mar"], [5, 15]⟩] := rfl
  have h := claim_C2_merge_union_sorted.2 mergeExampleEntries _
    ⟨["Feb", "Jan", "Mar"], [⟨"s1:hours", [20, 10, 0]⟩, ⟨"s2:hours", [5, 0, 15]⟩]⟩
    hs claim_C2_merge_union_sorted.1
  refine ⟨h.1, ?_⟩
  exact (h.2.1 "Mar").mpr ⟨⟨"s2:hours", ["Feb", "Mar"], [5, 15]⟩, by simp, by simp⟩

/-! ## C6 — retention of cumulative fields when exclusion empties the profile -/

/-- C6 counterexample: a non-empty record collection, no directive, whose
numeric non-label fields all carry cumulative names but hold only zeros:
the line-branch re-scan (which requires a nonzero value) re-admits nothing,
so the payload degrades to the zero placeholder dataset `value` — the
cumulative fields are NOT retained as numeric candidates and exclusion did
make the dataset unchartable. -/
theorem claim_C6_counterexample :
    renderChart (.jarr [.jobj [("month", .jstr "Jan"), ("hours_cumulative", .jint 0),
        ("cost_cumulative", .jint 0)]]) none =
      .ok (.built ⟨["Jan"], [⟨"value", [some 0]⟩]⟩, "line") := rfl

/-- C6 (amended): when profiling leaves zero numeric candidates (cumulative
exclusion included) and no bar/pie branch fires, the line-stage fallback
re-admits exactly the non-label fields whose values all coerce with at least
one nonzero — cumulative-named fields included, since the re-scan does not
exclude them — and charts one dataset per such field; the payload degrades
to the zero placeholder only when no field qualifies (e.g. all cumulative
columns are identically zero). -/
theorem claim_C6_fallback_retention (sample : Record) (rest : List Record)
    (hnum : numericFieldsOf (labelFieldOf sample) sample = [])
    (hline : (renderCore (sample :: rest) none).2 = "line") :
    (renderCore (sample :: rest) none).1 =
      (if (fallbackFields (sample :: rest) (labelFieldOf sample) sample).isEmpty then
        ⟨(sample :: rest).map (lineLabel (labelFieldOf sample)),
         [⟨"value", ((sample :: rest).map (lineLabel (labelFieldOf sample))).map
            (fun _ => some 0)⟩]⟩
       else
        ⟨(sample :: rest).map (lineLabel (labelFieldOf sample)),
         (fallbackFields (sample :: rest) (labelFieldOf sample) sample).map
           (fun f => ⟨f, (sample :: rest).map (dataEntry f)⟩)⟩) := by
  have hprof : profileOf (sample :: rest) =
      (labelFieldOf sample, nameFieldOf sample,
       numericFieldsOf (labelFieldOf sample) sample) := rfl
  simp only [renderCore, hprof, normHint] at hline ⊢
  rcases barStep_init_cases (sample :: rest) (nameFieldOf sample)
      (numericFieldsOf (labelFieldOf sample) sample) false "line" with hb | ⟨hbt, _⟩
  · rw [hb] at hline ⊢
    rcases pieStep_init_cases (sample :: rest) (nameFieldOf sample)
        (labelFieldOf sample) false "line" with hpi | ⟨hpt, _⟩
    · rw [hpi] at hline ⊢
      simp only [lineStep, beq_self_eq_true, if_true, hnum, List.isEmpty_nil,
        List.nil_append]
      cases hff : (fallbackFields (sample :: rest) (labelFieldOf sample) sample) with
      | nil => simp [finalize, hff]
      | cons a as => simp [finalize, hff]
    · rw [lineStep_notLine _ _ _ _ (by rw [hpt]; rfl), hpt] at hline
      exact absurd hline (by decide)
  · rw [pieStep_notLine _ _ _ _ _ (by rw [hbt]; rfl),
        lineStep_notLine _ _ _ _ (by rw [hbt]; rfl), hbt] at hline
    exact absurd hline (by decide)

/-- C6 witness: a record whose only numeric fields are cumulative-named,
one of them nonzero — the nonzero one is retained by the fallback and
charted; no degradation to the placeholder. -/
theorem claim_C6_witness :
    (renderCore [[("month", .jstr "Jan"), ("hours_cumulative", .jint 5),
        ("cost_cumulative", .jint 0)]] none).1 =
      ⟨["Jan"], [⟨"hours_cumulative", [some 5]⟩]⟩ := by
  have h := claim_C6_fallback_retention
    [("month", .jstr "Jan"), ("hours_cumulative", .jint 5), ("cost_cumulative", .jint 0)]
    [] rfl rfl
  exact h.trans rfl

end PMO
